import Mathlib

/-!
Verification of the ceph-terraform provider's reconciliation core.

Each definition is a shallow embedding of a function from
`ceph_terraform_provider.go`; doc comments name the Go symbol it models.
Go strings are Lean `String`, Go `int64` is `Int` (with int64 clamping in
`goParseInt`), Terraform nullable attribute values (`types.Int64`,
`types.String`) are `Option`.
-/

namespace CephTf

/-! ## Go string primitives -/

/-- Tests whether `sub` is a prefix of `l` (helper for `goContains`). -/
def startsWithList : List Char → List Char → Bool
  | _, [] => true
  | [], _ :: _ => false
  | c :: cs, d :: ds => c == d && startsWithList cs ds

/-- Tests whether `sub` occurs as a contiguous sublist of `l`. -/
def hasSubList : List Char → List Char → Bool
  | [], sub => sub.isEmpty
  | c :: cs, sub => startsWithList (c :: cs) sub || hasSubList cs sub

/-- Models Go `strings.Contains(s, sub)`. -/
def goContains (s sub : String) : Bool := hasSubList s.data sub.data

/-- Splits a character list on every occurrence of `sep`
(helper for `goSplit`). -/
def splitCharList (sep : Char) : List Char → List (List Char)
  | [] => [[]]
  | c :: cs =>
    let rest := splitCharList sep cs
    if c == sep then [] :: rest
    else
      match rest with
      | r :: rs => (c :: r) :: rs
      | [] => [[c]]

/-- Models Go `strings.Split(s, sep)` for a one-character separator,
which is the only kind of separator the provider uses
(" ", ":", "\n", "="). In particular `goSplit "" sep = [""]`, as in Go. -/
def goSplit (s : String) (sep : Char) : List String :=
  (splitCharList sep s.data).map String.mk

/-- The whitespace class trimmed by Go `strings.TrimSpace`
(restricted to the ASCII space characters that occur in control-plane
output). -/
def isSpaceGo (c : Char) : Bool :=
  c == ' ' || c == '\t' || c == '\n' || c == '\r' || c == '\x0b' || c == '\x0c'

/-- Drops leading whitespace (helper for `goTrim`). -/
def trimLeftList : List Char → List Char
  | [] => []
  | c :: cs => if isSpaceGo c then trimLeftList cs else c :: cs

/-- Models Go `strings.TrimSpace`. -/
def goTrim (s : String) : String :=
  String.mk ((trimLeftList (trimLeftList s.data.reverse).reverse))

/-- Numeric value of a digit list (helper for `goParseInt`). -/
def digitsVal (cs : List Char) : Int :=
  cs.foldl (fun acc c => acc * 10 + ((c.toNat : Int) - ('0'.toNat : Int))) 0

/-- Tests for a nonempty all-digit list (helper for `goParseInt`). -/
def isDigits (cs : List Char) : Bool :=
  !cs.isEmpty && cs.all (fun c => c.isDigit)

def maxInt64 : Int := 9223372036854775807

def minInt64 : Int := -9223372036854775808

/-- Clamps to the int64 range, as Go `strconv.ParseInt` does on range
overflow (the error is discarded by the provider). -/
def clampInt64 (n : Int) : Int :=
  if n > maxInt64 then maxInt64 else if n < minInt64 then minInt64 else n

/-- Models `v, _ := strconv.ParseInt(s, 10, 64)` with the error discarded:
syntax errors yield 0 (Go returns 0 with a non-nil error, and the provider
ignores the error), range overflow yields the clamped value. -/
def goParseInt (s : String) : Int :=
  match s.data with
  | '+' :: rest => if isDigits rest then clampInt64 (digitsVal rest) else 0
  | '-' :: rest => if isDigits rest then clampInt64 (-(digitsVal rest)) else 0
  | cs => if isDigits cs then clampInt64 (digitsVal cs) else 0

/-! ## CephClient and the command builder -/

/-- Models the Go `CephClient` struct: the immutable connection context. -/
structure CephClient where
  configFile : String
  keyring : String
  user : String
deriving DecidableEq, Repr

/-- Models `CephClient.buildCmdArgs`: split the logical command on spaces,
then append `--conf`, `--keyring`, `--user` flag pairs for each non-empty
field, in that order. -/
def buildCmdArgs (c : CephClient) (cmd : String) : List String :=
  let args := goSplit cmd ' '
  let args := if c.configFile ≠ "" then args ++ ["--conf", c.configFile] else args
  let args := if c.keyring ≠ "" then args ++ ["--keyring", c.keyring] else args
  if c.user ≠ "" then args ++ ["--user", c.user] else args

/-- A `--flag value` pair when the value is non-empty, nothing otherwise
(the shape the spec ascribes to each connection-context field). -/
def optPair (flag v : String) : List String :=
  if v = "" then [] else [flag, v]

/-! ## Pool resource commands -/

/-- Terraform model of `ceph_pool` (`poolResourceModel`); optional
attributes are `Option`. -/
structure PoolModel where
  name : String
  pgNum : Option Int
  pgpNum : Option Int
  size : Option Int
  minSize : Option Int
  type : Option String
  crushRule : Option String
deriving DecidableEq, Repr

/-- Models `poolResource.Delete`: the command string built by
`fmt.Sprintf("ceph osd pool delete %s %s --yes-i-really-really-mean-it",
name, name)`. -/
def poolDeleteCmd (name : String) : String :=
  "ceph osd pool delete " ++ name ++ " " ++ name ++ " --yes-i-really-really-mean-it"

/-- Models the sequence of property-setting commands issued by
`poolResource.Update`. The Go code reads only the plan (`req.Plan`), never
the prior state, so the `_priorState` argument mirrors the unused
`req.State` of the request. -/
def poolUpdateCommands (plan _priorState : PoolModel) : List String :=
  (match plan.size with
   | some n => ["ceph osd pool set " ++ plan.name ++ " size " ++ toString n]
   | none => []) ++
  (match plan.minSize with
   | some n => ["ceph osd pool set " ++ plan.name ++ " min_size " ++ toString n]
   | none => [])

/-! ## Block image resource commands -/

/-- Terraform model of `ceph_block_image` (`blockImageResourceModel`);
`name`, `pool`, `size` are required attributes, `features` optional. -/
structure BlockImageModel where
  name : String
  pool : String
  size : String
  features : Option (List String)
deriving DecidableEq, Repr

/-- Models the resize command issued by `blockImageResource.Update`:
`rbd resize` is issued only when `plan.Size` differs from the prior
state's size (`!plan.Size.Equal(state.Size)`). -/
def blockImageUpdateCommands (plan priorState : BlockImageModel) : List String :=
  if plan.size = priorState.size then []
  else ["rbd resize --size " ++ plan.size ++ " " ++ plan.pool ++ "/" ++ plan.name]

/-! ## Colon-property parsers -/

/-- Models one iteration of the line loop in `poolResource.Read`
(lines 264-281): a line containing the substring `"size:"` is split on
every colon and, when that yields exactly two parts, the trimmed second
part is parsed as an integer into `size`; then the same for
`"min_size:"` into `minSize`. -/
def parsePoolLine (st : PoolModel) (line : String) : PoolModel :=
  let st1 :=
    if goContains line "size:" then
      match goSplit line ':' with
      | [_, v] => { st with size := some (goParseInt (goTrim v)) }
      | _ => st
    else st
  if goContains line "min_size:" then
    match goSplit line ':' with
    | [_, v] => { st1 with minSize := some (goParseInt (goTrim v)) }
    | _ => st1
  else st1

/-- Models the parsing loop of `poolResource.Read`: fold `parsePoolLine`
over the newline-split output. -/
def poolParseProps (output : String) (st : PoolModel) : PoolModel :=
  (goSplit output '\n').foldl parsePoolLine st

/-- Terraform model of the `ceph_pool` data source
(`poolDataSourceModel`). -/
structure PoolDsModel where
  name : String
  pgNum : Option Int
  size : Option Int
  minSize : Option Int
  type : Option String
deriving DecidableEq, Repr

/-- Models one iteration of the line loop in `poolDataSource.Read`
(lines 903-927): the same colon-splitting as the pool resource, for the
keys `size`, `min_size` and `pg_num` in that order. -/
def parsePoolDsLine (st : PoolDsModel) (line : String) : PoolDsModel :=
  let st1 :=
    if goContains line "size:" then
      match goSplit line ':' with
      | [_, v] => { st with size := some (goParseInt (goTrim v)) }
      | _ => st
    else st
  let st2 :=
    if goContains line "min_size:" then
      match goSplit line ':' with
      | [_, v] => { st1 with minSize := some (goParseInt (goTrim v)) }
      | _ => st1
    else st1
  if goContains line "pg_num:" then
    match goSplit line ':' with
    | [_, v] => { st2 with pgNum := some (goParseInt (goTrim v)) }
    | _ => st2
  else st2

/-- Models the parsing loop of `poolDataSource.Read`. -/
def poolDsParseProps (output : String) (st : PoolDsModel) : PoolDsModel :=
  (goSplit output '\n').foldl parsePoolDsLine st

/-! ## JSON values and `encoding/json.Unmarshal` into `map[string]interface{}` -/

/-- JSON values as Go `encoding/json` produces them when decoding into
`interface{}`; numbers keep their raw literal text (Go stores them as
`float64`, which is exact for the integer literals the control plane
emits). -/
inductive Json where
  | null
  | bool (b : Bool)
  | num (raw : String)
  | str (s : String)
  | arr (elems : List Json)
  | obj (fields : List (String × Json))
deriving Repr

/-- Skips JSON whitespace. -/
def skipWs : List Char → List Char
  | [] => []
  | c :: cs => if c == ' ' || c == '\t' || c == '\n' || c == '\r' then skipWs cs else c :: cs

/-- Hexadecimal digit value. -/
def hexVal (c : Char) : Option Nat :=
  if '0' ≤ c ∧ c ≤ '9' then some (c.toNat - '0'.toNat)
  else if 'a' ≤ c ∧ c ≤ 'f' then some (c.toNat - 'a'.toNat + 10)
  else if 'A' ≤ c ∧ c ≤ 'F' then some (c.toNat - 'A'.toNat + 10)
  else none

/-- JSON string escape characters. -/
def escChar : Char → Option Char
  | '"' => some '"'
  | '\\' => some '\\'
  | '/' => some '/'
  | 'b' => some (Char.ofNat 8)
  | 'f' => some (Char.ofNat 12)
  | 'n' => some '\n'
  | 'r' => some '\r'
  | 't' => some '\t'
  | _ => none

/-- Decodes a `\uXXXX` code point the way Go's unquoter does for a lone
escape: a surrogate half becomes U+FFFD. (Go additionally combines two
adjacent surrogate escapes into one code point; this model keeps them as
two replacement characters — a value-level simplification only, both
sides succeed.) -/
def uEscChar (n : Nat) : Char :=
  if 0xD800 ≤ n ∧ n ≤ 0xDFFF then Char.ofNat 0xFFFD else Char.ofNat n

/-- Parses a JSON string body after the opening quote; returns the decoded
characters and the rest of the input. As in Go's json scanner, an
unescaped control character (code point below 0x20) is an error. -/
def parseStrBody : List Char → Option (List Char × List Char)
  | [] => none
  | '"' :: rest => some ([], rest)
  | '\\' :: 'u' :: h1 :: h2 :: h3 :: h4 :: rest =>
    (match hexVal h1, hexVal h2, hexVal h3, hexVal h4 with
     | some a, some b, some c, some d =>
       (parseStrBody rest).map
         (fun p => (uEscChar (((a * 16 + b) * 16 + c) * 16 + d) :: p.1, p.2))
     | _, _, _, _ => none)
  | '\\' :: e :: rest =>
    (match escChar e with
     | some c => (parseStrBody rest).map (fun p => (c :: p.1, p.2))
     | none => none)
  | c :: rest =>
    if c.toNat < 32 then none
    else (parseStrBody rest).map (fun p => (c :: p.1, p.2))

/-- Takes a maximal run of decimal digits. -/
def takeDigits : List Char → (List Char × List Char)
  | [] => ([], [])
  | c :: cs =>
    if c.isDigit then
      let (d, r) := takeDigits cs
      (c :: d, r)
    else ([], c :: cs)

/-- Parses an optional JSON fraction part. -/
def parseFrac : List Char → Option (List Char × List Char)
  | '.' :: r =>
    let (ds, r2) := takeDigits r
    if ds.isEmpty then none else some ('.' :: ds, r2)
  | l => some ([], l)

/-- Parses an optional JSON exponent part. -/
def parseExp : List Char → Option (List Char × List Char)
  | [] => some ([], [])
  | c :: r =>
    if c == 'e' || c == 'E' then
      match r with
      | s :: r2 =>
        if s == '+' || s == '-' then
          let (ds, r3) := takeDigits r2
          if ds.isEmpty then none else some (c :: s :: ds, r3)
        else
          let (ds, r3) := takeDigits r
          if ds.isEmpty then none else some (c :: ds, r3)
      | [] => none
    else some ([], c :: r)

/-- Parses the magnitude of a JSON number (no sign). -/
def parseNumMag (l : List Char) : Option (List Char × List Char) :=
  match l with
  | [] => none
  | '0' :: rest => do
    let (f, r1) ← parseFrac rest
    let (e, r2) ← parseExp r1
    pure ('0' :: (f ++ e), r2)
  | c :: rest =>
    if c.isDigit then do
      let (ds, r0) := takeDigits rest
      let (f, r1) ← parseFrac r0
      let (e, r2) ← parseExp r1
      pure ((c :: ds) ++ f ++ e, r2)
    else none

/-- Parses a JSON number, keeping its raw literal characters. -/
def parseNumber (l : List Char) : Option (List Char × List Char) :=
  match l with
  | '-' :: rest => (parseNumMag rest).map (fun p => ('-' :: p.1, p.2))
  | _ => parseNumMag l

/-- Numeric value of a digit list as a natural number (helper for the
float64 range check). -/
def natDigitsVal (cs : List Char) : Nat :=
  cs.foldl (fun acc c => acc * 10 + (c.toNat - '0'.toNat)) 0

/-- Splits a number literal at the exponent marker: mantissa characters
and the exponent characters after `e`/`E` (empty when absent). -/
def splitAtExpChar : List Char → (List Char × List Char)
  | [] => ([], [])
  | c :: r =>
    if c == 'e' || c == 'E' then ([], r)
    else
      let (m, ex) := splitAtExpChar r
      (c :: m, ex)

/-- Splits a mantissa at the decimal point: integer digits and fraction
digits (empty when absent). -/
def splitAtDot : List Char → (List Char × List Char)
  | [] => ([], [])
  | c :: r =>
    if c == '.' then ([], r)
    else
      let (a, b) := splitAtDot r
      (c :: a, b)

/-- Value of an exponent part with its optional sign. -/
def expVal : List Char → Int
  | '+' :: r => (natDigitsVal r : Int)
  | '-' :: r => -(natDigitsVal r : Int)
  | r => (natDigitsVal r : Int)

/-- The overflow cutoff of `strconv.ParseFloat(s, 64)`: a decimal value
of magnitude at least `2^1024 - 2^970` (the midpoint above the largest
finite float64, which ties-to-even rounds to infinity) yields
`ErrRange`. -/
def f64OverflowBound : Nat := 2 ^ 1024 - 2 ^ 970

/-- Whether a decimal literal with significand `M`, decimal exponent `E`
and `sigLen` significand digits overflows float64, i.e.
`M * 10^E ≥ 2^1024 - 2^970`. The guards only shortcut regions where the
comparison is forced (`M < 10^sigLen` and `f64OverflowBound > 10^308`),
keeping every computed power small. -/
def overflowErr (M : Nat) (E : Int) (sigLen : Nat) : Bool :=
  if M = 0 then false
  else if 310 ≤ E then true
  else if 0 ≤ E then
    if f64OverflowBound ≤ M * 10 ^ E.toNat then true else false
  else
    let k := (-E).toNat
    if k + 309 ≤ sigLen then
      if f64OverflowBound * 10 ^ k ≤ M then true else false
    else false

/-- Whether a nonzero decimal literal with significand `M` and decimal
exponent `E` underflows float64 to zero, i.e.
`M * 10^E ≤ 2^(-1075)` (the midpoint below the smallest subnormal, which
ties-to-even rounds to zero): Go's `ParseFloat` then returns 0 with
`ErrRange`. Rewritten over integers as `M * 2^1075 ≤ 10^k` for
`k = -E`; the guard shortcut uses `M < 10^sigLen` and
`2^1075 < 10^324`. -/
def underflowErr (M : Nat) (E : Int) (sigLen : Nat) : Bool :=
  if M = 0 then false
  else if 0 ≤ E then false
  else
    let k := (-E).toNat
    if sigLen + 324 ≤ k then true
    else if M * 2 ^ 1075 ≤ 10 ^ k then true else false

/-- Models the `strconv.ParseFloat(s, 64)` range error inside
`encoding/json`'s decoding of a number into `interface{}` (float64): the
whole `Unmarshal` fails when the literal's exact value overflows to
infinity or underflows to zero. -/
def numRangeErr (ds : List Char) : Bool :=
  let ds1 := match ds with | '-' :: r => r | l => l
  let (mant, expDs) := splitAtExpChar ds1
  let (intDs, fracDs) := splitAtDot mant
  let sig := intDs ++ fracDs
  let M := natDigitsVal sig
  let E : Int := expVal expDs - (fracDs.length : Int)
  overflowErr M E sig.length || underflowErr M E sig.length

/-- Inserts a key-value pair into an association list with overwrite,
mirroring Go map insertion (`encoding/json` keeps the last duplicate key;
`len` counts distinct keys). -/
def insertKV (kvs : List (String × Json)) (k : String) (v : Json) : List (String × Json) :=
  if kvs.any (fun p => p.1 = k) then
    kvs.map (fun p => if p.1 = k then (k, v) else p)
  else kvs ++ [(k, v)]

mutual

/-- Parses one JSON value; `fuel` bounds nesting depth (input length
suffices). -/
def parseValue : Nat → List Char → Option (Json × List Char)
  | 0, _ => none
  | fuel + 1, input =>
    match skipWs input with
    | 'n' :: 'u' :: 'l' :: 'l' :: rest => some (.null, rest)
    | 't' :: 'r' :: 'u' :: 'e' :: rest => some (.bool true, rest)
    | 'f' :: 'a' :: 'l' :: 's' :: 'e' :: rest => some (.bool false, rest)
    | '"' :: rest => (parseStrBody rest).map (fun p => (.str (String.mk p.1), p.2))
    | '{' :: rest =>
      (match skipWs rest with
       | '}' :: r2 => some (.obj [], r2)
       | r2 => (parseMembers fuel r2 []).map (fun p => (.obj p.1, p.2)))
    | '[' :: rest =>
      (match skipWs rest with
       | ']' :: r2 => some (.arr [], r2)
       | r2 => (parseElems fuel r2 []).map (fun p => (.arr p.1, p.2)))
    | l =>
      (match parseNumber l with
       | some (ds, r) =>
         if numRangeErr ds then none else some (.num (String.mk ds), r)
       | none => none)

/-- Parses the members of a JSON object after the opening brace. -/
def parseMembers : Nat → List Char → List (String × Json) →
    Option (List (String × Json) × List Char)
  | 0, _, _ => none
  | fuel + 1, input, acc =>
    match skipWs input with
    | '"' :: rest =>
      (match parseStrBody rest with
       | none => none
       | some (key, r1) =>
         match skipWs r1 with
         | ':' :: r2 =>
           (match parseValue fuel r2 with
            | none => none
            | some (v, r3) =>
              let acc2 := insertKV acc (String.mk key) v
              match skipWs r3 with
              | ',' :: r4 => parseMembers fuel r4 acc2
              | '}' :: r4 => some (acc2, r4)
              | _ => none)
         | _ => none)
    | _ => none

/-- Parses the elements of a JSON array after the opening bracket. -/
def parseElems : Nat → List Char → List Json → Option (List Json × List Char)
  | 0, _, _ => none
  | fuel + 1, input, acc =>
    match parseValue fuel input with
    | none => none
    | some (v, r1) =>
      match skipWs r1 with
      | ',' :: r2 => parseElems fuel r2 (acc ++ [v])
      | ']' :: r2 => some (acc ++ [v], r2)
      | _ => none

end

/-- Outcome of a Terraform `Read`: the resource was removed from state, a
diagnostic error was added (summary and detail), or the state was set. -/
inductive ReadResult (σ : Type) where
  | removed
  | failed (summary detail : String)
  | ok (st : σ)
deriving DecidableEq, Repr

/-- Terraform model of `ceph_user` (`userResourceModel`); `key` is the
computed secret. -/
structure UserModel where
  name : String
  caps : List (String × String)
  key : Option String
deriving DecidableEq, Repr

/-- Models the key-extraction loop of `userResource.Create`
(lines 422-431): each output line containing `"key ="` is split on every
`=`; when that yields exactly two parts the trimmed second part becomes
the key. -/
def extractUserKey (output : String) (k : Option String) : Option String :=
  (goSplit output '\n').foldl
    (fun acc line =>
      if goContains line "key =" then
        match goSplit line '=' with
        | [_, v] => some (goTrim v)
        | _ => acc
      else acc) k

/-- Models `userResource.Read` after the `ceph auth get <name>` command:
an execution error whose message contains `"entity does not exist"`
removes the resource, any other execution error adds a diagnostic; on
success, output that does not contain the user's name removes the
resource, otherwise the prior state is kept. -/
def userRead (execResult : Except String String) (st : UserModel) :
    ReadResult UserModel :=
  match execResult with
  | .error e =>
    if goContains e "entity does not exist" then .removed
    else .failed "Failed to read user" e
  | .ok output =>
    if goContains output st.name then .ok st else .removed

/-! ## Cluster status data source -/

theorem strDataAppend (s t : String) : (s ++ t).data = s.data ++ t.data := rfl

theorem hasSubList_append_of_right (a : List Char) {b t : List Char}
    (h : hasSubList b t = true) : hasSubList (a ++ b) t = true := by
  induction a with
  | nil => simpa using h
  | cons c cs ih => simp [hasSubList, ih]

/-! ## Claim theorems -/

/-- C1: the colon-property parser does not satisfy the spec example. On
the output `"size: 3\nmin_size: 2\n"` both the pool resource parser and
the pool data source parser yield `size = 2`, not `size = 3`: the line
`min_size: 2` also contains the substring `"size:"` and overwrites the
size field. The same substring match means a line with an unrecognized
key ending in `size:` also alters the size field. -/
theorem c1_colon_parser_min_size_clobbers_size :
    poolParseProps "size: 3\nmin_size: 2\n" ⟨"p", none, none, none, none, none, none⟩
        = ⟨"p", none, none, some 2, some 2, none, none⟩ ∧
    poolDsParseProps "size: 3\nmin_size: 2\n" ⟨"p", none, none, none, none⟩
        = ⟨"p", none, some 2, some 2, none⟩ := by decide

/-- C2 counterexample: updating a pool with a desired state equal to the
prior state still issues both property-setting commands, so Update is not
idempotent for pools as the claim states. -/
theorem c2_pool_update_not_idempotent_cex :
    poolUpdateCommands ⟨"p", some 32, some 32, some 3, some 2, none, none⟩
        ⟨"p", some 32, some 32, some 3, some 2, none, none⟩
      = ["ceph osd pool set p size 3", "ceph osd pool set p min_size 2"] ∧
    poolUpdateCommands ⟨"p", some 32, some 32, some 3, some 2, none, none⟩
        ⟨"p", some 32, some 32, some 3, some 2, none, none⟩ ≠ [] := by decide

/-- C2 amended: block image Update issues the resize command exactly when
the desired size differs from the prior state; pool Update ignores the
prior state entirely and issues the set commands for every non-null
desired `size`/`min_size` field, changed or not. -/
theorem c2_update_commands_amended :
    (∀ plan prior1 prior2 : PoolModel,
        poolUpdateCommands plan prior1 = poolUpdateCommands plan prior2) ∧
    (∀ plan prior : PoolModel,
        (poolUpdateCommands plan prior = [] ↔ plan.size = none ∧ plan.minSize = none)) ∧
    (∀ plan prior : BlockImageModel,
        (blockImageUpdateCommands plan prior = [] ↔ plan.size = prior.size)) := by
  refine ⟨fun _ _ _ => rfl, fun plan prior => ?_, fun plan prior => ?_⟩
  · cases h1 : plan.size <;> cases h2 : plan.minSize <;>
      simp [poolUpdateCommands, h1, h2]
  · by_cases h : plan.size = prior.size <;> simp [blockImageUpdateCommands, h]

/-- C4: for every pool name the Delete command exhibits the resource name
twice, and the force-confirmation token occurs in the command. -/
theorem c4_pool_delete_double_name_force (name : String) :
    (∃ u v w : String, poolDeleteCmd name = u ++ name ++ v ++ name ++ w) ∧
    goContains (poolDeleteCmd name) "--yes-i-really-really-mean-it" = true := by
  refine ⟨⟨"ceph osd pool delete ", " ", " --yes-i-really-really-mean-it", rfl⟩, ?_⟩
  show hasSubList (poolDeleteCmd name).data
      ("--yes-i-really-really-mean-it".data) = true
  have h1 : (poolDeleteCmd name).data
      = "ceph osd pool delete ".data ++ (name.data ++ (" ".data ++
        (name.data ++ " --yes-i-really-really-mean-it".data))) := by
    simp [poolDeleteCmd, strDataAppend, List.append_assoc]
  rw [h1]
  apply hasSubList_append_of_right
  apply hasSubList_append_of_right
  apply hasSubList_append_of_right
  apply hasSubList_append_of_right
  decide

/-- C5: for every connection context and logical command, the built
argument vector is the space-split command followed by the `--conf`,
`--keyring`, `--user` flag pairs, each present exactly when the
corresponding field is non-empty, in that fixed order. -/
theorem c5_build_cmd_args_structure (c : CephClient) (cmd : String) :
    buildCmdArgs c cmd =
      goSplit cmd ' ' ++ optPair "--conf" c.configFile ++
        optPair "--keyring" c.keyring ++ optPair "--user" c.user := by
  obtain ⟨cf, kr, u⟩ := c
  by_cases h1 : cf = "" <;> by_cases h2 : kr = "" <;> by_cases h3 : u = "" <;>
    simp [buildCmdArgs, optPair, h1, h2, h3]

/-- C7: on a failed principal query, Read removes the resource exactly
when the execution error message contains `"entity does not exist"`, and
surfaces the `Failed to read user` diagnostic exactly otherwise. -/
theorem c7_user_read_absent_iff_entity_missing (e : String) (st : UserModel) :
    (userRead (.error e) st = .removed ↔
      goContains e "entity does not exist" = true) ∧
    (userRead (.error e) st = .failed "Failed to read user" e ↔
      goContains e "entity does not exist" = false) := by
  cases h : goContains e "entity does not exist" <;> simp [userRead, h]

/-- C8: the key extraction is not applied to every `key = <value>` line.
A creation output line whose value contains an `=` (as real base64
secrets with padding do) leaves the key unset, because the code splits on
every `=` and requires exactly two parts; a value without `=` is
extracted as the claim states. -/
theorem c8_key_extraction_requires_single_equals :
    extractUserKey "key = AQAB==" none = none ∧
    extractUserKey "key = abc" none = some "abc" := by decide

/-- C9 counterexample: with a configured config file, the blank logical
command yields a leading empty token before the flag pair, not an empty
token sequence plus the flags. -/
theorem c9_blank_command_cex :
    buildCmdArgs ⟨"c", "", ""⟩ "" = ["", "--conf", "c"] ∧
    buildCmdArgs ⟨"c", "", ""⟩ "" ≠ ["--conf", "c"] := by decide

/-- C9 amended: the Command Builder is total, and for every connection
context the blank logical command yields a single empty token followed by
the configured flag pairs (Go `strings.Split("", " ")` is `[""]`, not
`[]`). -/
theorem c9_blank_command_amended (c : CephClient) :
    buildCmdArgs c "" =
      [""] ++ optPair "--conf" c.configFile ++ optPair "--keyring" c.keyring ++
        optPair "--user" c.user := by
  obtain ⟨cf, kr, u⟩ := c
  have hsplit : goSplit "" ' ' = [""] := rfl
  by_cases h1 : cf = "" <;> by_cases h2 : kr = "" <;> by_cases h3 : u = "" <;>
    simp [buildCmdArgs, optPair, hsplit, h1, h2, h3]

/-- C10: on a successful principal query, Read removes the resource
exactly when the output does not contain the principal's name as a
substring, and keeps the prior state exactly when it does. -/
theorem c10_user_read_absent_on_name_missing (out : String) (st : UserModel) :
    (userRead (.ok out) st = .removed ↔ goContains out st.name = false) ∧
    (userRead (.ok out) st = .ok st ↔ goContains out st.name = true) := by
  cases h : goContains out st.name <;> simp [userRead, h]

end CephTf
